import Mathlib

/-!
Formal model of the video-transcribe-mcp server, src/server.py.

The pure helper functions of the server (sanitize_filename, detect_platform,
format_timestamp, format_duration, the transcript serialization of
save_transcript, the handler logic of handle_transcribe_url,
handle_transcribe_file, handle_list_transcripts, and the dispatch layer
handle_tool_call) are embedded as Lean functions.  Effects of external
collaborators (the yt-dlp subprocess, the whisper engine, the filesystem)
are modelled by oracle values carried in environment records: a subprocess
run is a value describing its exit code and output, the temp directory is a
list of file names, the whisper call is an Except value that either raises
or returns segments.  Python floats are modelled by rationals, with Python
floor-division and modulo spelled out explicitly.
-/

namespace Server

/-- Python floor of a rational: numerator floor-divided by denominator. -/
def ratFloor (q : ℚ) : ℤ :=
  Int.fdiv q.num (q.den : ℤ)

/-- Python int() conversion of a rational: truncation toward zero. -/
def pyInt (q : ℚ) : ℤ :=
  if 0 ≤ q then ratFloor q else -(ratFloor (-q))

/-- Python modulo for rationals with a positive divisor, as in seconds % 60. -/
def pyMod (q d : ℚ) : ℚ :=
  q - d * (ratFloor (q / d) : ℚ)

/-- Characters removed by sanitize_filename, the Python character class of
re.sub in server.py line 54. -/
def invalidFilenameChars : List Char :=
  ['<', '>', ':', '\"', '/', '\\', '|', '?', '*']

/-- The whitespace characters stripped by the Python str.strip method. -/
def pyIsSpace (c : Char) : Bool :=
  [0x09, 0x0a, 0x0b, 0x0c, 0x0d, 0x1c, 0x1d, 0x1e, 0x1f, 0x20,
   0x85, 0xa0, 0x1680, 0x2000, 0x2001, 0x2002, 0x2003, 0x2004, 0x2005,
   0x2006, 0x2007, 0x2008, 0x2009, 0x200a, 0x2028, 0x2029, 0x202f,
   0x205f, 0x3000].contains c.toNat

/-- Python str.strip on a character list: drop whitespace from both ends. -/
def pyStripList (l : List Char) : List Char :=
  ((l.dropWhile pyIsSpace).reverse.dropWhile pyIsSpace).reverse

/-- sanitize_filename from server.py lines 51 to 56: re.sub removes the
invalid characters, then the result is cut to 100 characters and stripped. -/
def sanitize_filename (name : String) : String :=
  String.mk (pyStripList ((name.data.filter
    (fun c => !invalidFilenameChars.contains c)).take 100))

theorem dropWhile_head?_false {α : Type} (p : α → Bool) :
    ∀ (l : List α) (a : α), (l.dropWhile p).head? = some a → p a = false
  | [], a => by simp [List.dropWhile]
  | b :: l, a => by
    rw [List.dropWhile_cons]
    by_cases hb : p b = true
    · rw [if_pos hb]
      exact dropWhile_head?_false p l a
    · rw [if_neg hb]
      intro h
      simp only [List.head?_cons, Option.some.injEq] at h
      subst h
      simpa using hb

theorem dropWhile_eq_self_of_head? {α : Type} (p : α → Bool) (l : List α)
    (h : ∀ a, l.head? = some a → p a = false) : l.dropWhile p = l := by
  cases l with
  | nil => rfl
  | cons a t => simp [List.dropWhile_cons, h a rfl]

theorem pyStripList_sublist (l : List Char) : (pyStripList l).Sublist l := by
  have h₁ : (l.dropWhile pyIsSpace).Sublist l := List.dropWhile_sublist _
  have h₂ : ((l.dropWhile pyIsSpace).reverse.dropWhile pyIsSpace).Sublist
      (l.dropWhile pyIsSpace).reverse := List.dropWhile_sublist _
  have h₃ := h₂.reverse
  rw [List.reverse_reverse] at h₃
  exact h₃.trans h₁

theorem pyStripList_head?_false (l : List Char) (a : Char)
    (h : (pyStripList l).head? = some a) : pyIsSpace a = false := by
  unfold pyStripList at h
  rw [List.head?_reverse] at h
  have hsuffix : ((l.dropWhile pyIsSpace).reverse.dropWhile pyIsSpace) <:+
      (l.dropWhile pyIsSpace).reverse := List.dropWhile_suffix pyIsSpace
  obtain ⟨s, hs⟩ := hsuffix
  have hg : ((l.dropWhile pyIsSpace).reverse).getLast? = some a := by
    rw [← hs, List.getLast?_append, h]
    rfl
  rw [List.getLast?_reverse] at hg
  exact dropWhile_head?_false pyIsSpace _ a hg

theorem pyStripList_getLast?_false (l : List Char) (a : Char)
    (h : (pyStripList l).getLast? = some a) : pyIsSpace a = false := by
  unfold pyStripList at h
  rw [List.getLast?_reverse] at h
  exact dropWhile_head?_false pyIsSpace _ a h

theorem pyStripList_idem (l : List Char) : pyStripList (pyStripList l) = pyStripList l := by
  have h1 : (pyStripList l).dropWhile pyIsSpace = pyStripList l :=
    dropWhile_eq_self_of_head? _ _ (pyStripList_head?_false l)
  have h2 : ((pyStripList l).reverse).dropWhile pyIsSpace = (pyStripList l).reverse := by
    refine dropWhile_eq_self_of_head? _ _ ?_
    intro a ha
    rw [List.head?_reverse] at ha
    exact pyStripList_getLast?_false l a ha
  show (((pyStripList l).dropWhile pyIsSpace).reverse.dropWhile pyIsSpace).reverse = _
  rw [h1, h2, List.reverse_reverse]

/-- C8: for every string x, sanitize_filename x contains none of the
characters stripped by the regular expression, has length at most 100,
starts and ends with a non-whitespace character when nonempty, and
sanitize_filename is idempotent. -/
theorem claim8_sanitize_filename (x : String) :
    ((sanitize_filename x).data.all (fun c => !invalidFilenameChars.contains c) = true)
    ∧ (sanitize_filename x).length ≤ 100
    ∧ ((sanitize_filename x).data.head?.elim True (fun c => pyIsSpace c = false))
    ∧ ((sanitize_filename x).data.getLast?.elim True (fun c => pyIsSpace c = false))
    ∧ sanitize_filename (sanitize_filename x) = sanitize_filename x := by
  have hdata : (sanitize_filename x).data =
      pyStripList ((x.data.filter (fun c => !invalidFilenameChars.contains c)).take 100) := rfl
  refine ⟨?_, ?_, ?_, ?_, ?_⟩
  · rw [List.all_eq_true]
    intro c hc
    rw [hdata] at hc
    have hc' := (pyStripList_sublist _).subset hc
    have hc'' : c ∈ x.data.filter (fun c => !invalidFilenameChars.contains c) :=
      List.mem_of_mem_take hc'
    exact @List.of_mem_filter Char (fun c => !invalidFilenameChars.contains c) c x.data hc''
  · show (sanitize_filename x).data.length ≤ 100
    rw [hdata]
    have h₁ := (pyStripList_sublist
      ((x.data.filter (fun c => !invalidFilenameChars.contains c)).take 100)).length_le
    have h₂ : ((x.data.filter (fun c => !invalidFilenameChars.contains c)).take 100).length ≤ 100 := by
      rw [List.length_take]
      exact min_le_left _ _
    exact h₁.trans h₂
  · rw [hdata]
    cases hh : (pyStripList ((x.data.filter
        (fun c => !invalidFilenameChars.contains c)).take 100)).head? with
    | none => trivial
    | some c => exact pyStripList_head?_false _ c hh
  · rw [hdata]
    cases hh : (pyStripList ((x.data.filter
        (fun c => !invalidFilenameChars.contains c)).take 100)).getLast? with
    | none => trivial
    | some c => exact pyStripList_getLast?_false _ c hh
  · show String.mk (pyStripList (((sanitize_filename x).data.filter
        (fun c => !invalidFilenameChars.contains c)).take 100)) = sanitize_filename x
    have hfilter : ((sanitize_filename x).data.filter
        (fun c => !invalidFilenameChars.contains c)) = (sanitize_filename x).data := by
      rw [List.filter_eq_self]
      intro c hc
      rw [hdata] at hc
      have hc' := (pyStripList_sublist _).subset hc
      have hc'' : c ∈ x.data.filter (fun c => !invalidFilenameChars.contains c) :=
        List.mem_of_mem_take hc'
      exact @List.of_mem_filter Char (fun c => !invalidFilenameChars.contains c) c x.data hc''
    have hlen : (sanitize_filename x).data.length ≤ 100 := by
      rw [hdata]
      have h₁ := (pyStripList_sublist
        ((x.data.filter (fun c => !invalidFilenameChars.contains c)).take 100)).length_le
      have h₂ : ((x.data.filter (fun c => !invalidFilenameChars.contains c)).take 100).length ≤ 100 := by
        rw [List.length_take]
        exact min_le_left _ _
      exact h₁.trans h₂
    rw [hfilter, List.take_of_length_le hlen, hdata, pyStripList_idem]
    rfl

/-- ASCII lowering of a string, modelling the Python str.lower call on the
ASCII characters that the platform substrings consist of. -/
def pyLower (s : String) : String :=
  String.mk (s.data.map Char.toLower)

/-- Python substring containment, needle in hay, over character lists. -/
def listIsSubstr (needle : List Char) : List Char → Bool
  | [] => needle.isEmpty
  | c :: rest => needle.isPrefixOf (c :: rest) || listIsSubstr needle rest

/-- Python substring containment for strings. -/
def pyContains (hay needle : String) : Bool :=
  listIsSubstr needle.data hay.data

/-- detect_platform from server.py lines 59 to 73. -/
def detect_platform (url : String) : String :=
  let u := pyLower url
  if pyContains u "youtube.com" || pyContains u "youtu.be" then "YouTube"
  else if pyContains u "instagram.com" then "Instagram"
  else if pyContains u "vk.com" || pyContains u "vkvideo" then "VK"
  else if pyContains u "rutube.ru" then "Rutube"
  else if pyContains u "tiktok.com" then "TikTok"
  else "Video"

/-- Python formatting of an integer with the 02d format specification. -/
def pad2 (n : ℤ) : String :=
  let s := toString n
  if s.length < 2 then "0" ++ s else s

/-- format_timestamp from server.py lines 120 to 128, on rational seconds. -/
def format_timestamp (seconds : ℚ) : String :=
  let hours : ℤ := ratFloor (seconds / 3600)
  let minutes : ℤ := ratFloor (pyMod seconds 3600 / 60)
  let secs : ℤ := pyInt (pyMod seconds 60)
  if 0 < hours then
    "[" ++ pad2 hours ++ ":" ++ pad2 minutes ++ ":" ++ pad2 secs ++ "]"
  else
    "[" ++ pad2 minutes ++ ":" ++ pad2 secs ++ "]"

/-- format_duration from server.py lines 131 to 139, on integer seconds,
with Python floor division and modulo. -/
def format_duration (seconds : ℤ) : String :=
  let hours := Int.fdiv seconds 3600
  let minutes := Int.fdiv (Int.fmod seconds 3600) 60
  let secs := Int.fmod seconds 60
  if 0 < hours then toString hours ++ ":" ++ pad2 minutes ++ ":" ++ pad2 secs
  else toString minutes ++ ":" ++ pad2 secs

/-- The fields that get_video_info reads from the JSON object printed by
yt-dlp; a missing field makes the corresponding Python dict.get fall back
to its default. -/
structure VideoJson where
  title : Option String
  duration : Option ℤ
  uploader : Option String

/-- The metadata record returned by get_video_info. -/
structure VideoInfo where
  title : String
  duration : ℤ
  uploader : String
deriving DecidableEq

/-- Oracle describing one subprocess.run invocation of the metadata probe:
exn covers a timeout or spawn failure raised inside the try block, run
carries the exit code together with the parsed JSON of stdout, where none
models output on which json.loads raises. -/
inductive ProbeResult where
  | exn : ProbeResult
  | run (returncode : ℤ) (parsed : Option VideoJson) : ProbeResult

/-- get_video_info from server.py lines 76 to 94: any exception and any
non-zero exit code produce the all-default record. -/
def get_video_info : ProbeResult → VideoInfo
  | .exn => ⟨"Unknown", 0, "Unknown"⟩
  | .run rc parsed =>
    if rc = 0 then
      match parsed with
      | none => ⟨"Unknown", 0, "Unknown"⟩
      | some j => ⟨j.title.getD "Unknown", j.duration.getD 0, j.uploader.getD "Unknown"⟩
    else ⟨"Unknown", 0, "Unknown"⟩

/-- One transcription segment as produced by transcribe_audio: start, end
and whitespace-trimmed text.  The end field of the Python dict is named
stop here because end is a Lean keyword. -/
structure Segment where
  start : ℚ
  stop : ℚ
  text : String

/-- Python str.join with a separator: empty on the empty list, otherwise a
left fold that puts the separator between consecutive elements. -/
def pyJoin (sep : String) : List String → String
  | [] => ""
  | a :: as => as.foldl (fun acc x => acc ++ sep ++ x) a

/-- Plain concatenation of a list of strings. -/
def strConcat : List String → String
  | [] => ""
  | a :: as => a ++ strConcat as

/-- The horizontal rule of the transcript format, an equals sign repeated
fifty times. -/
def sep50 : String :=
  String.mk (List.replicate 50 '=')

/-- The list of lines built by save_transcript in server.py lines 180 to
206: header block, one timestamped line per segment, then the plain-text
block.  The current wall-clock string of the header is a parameter. -/
def save_transcript_lines (nowStr url platform title : String) (duration : ℤ)
    (segments : List Segment) (language : String) : List String :=
  (["Источник: " ++ url,
    "Платформа: " ++ platform,
    "Название: " ++ title,
    "Дата транскрипции: " ++ nowStr,
    "Длительность: " ++ format_duration duration,
    "Язык: " ++ language,
    "",
    sep50,
    ""]
  ++ (segments.map (fun seg => format_timestamp seg.start ++ " " ++ seg.text)
  ++ ["",
      sep50,
      "ПОЛНЫЙ ТЕКСТ (без таймкодов):",
      sep50,
      "",
      pyJoin " " (segments.map Segment.text)]))

/-- The file body written by save_transcript in server.py line 209: the
lines joined by newlines. -/
def save_transcript_content (nowStr url platform title : String) (duration : ℤ)
    (segments : List Segment) (language : String) : String :=
  pyJoin "\n" (save_transcript_lines nowStr url platform title duration segments language)

/-- The file name chosen by save_transcript in server.py lines 175 to 177. -/
def save_transcript_filename (dateStr platform title : String) : String :=
  dateStr ++ "_" ++ platform ++ "_" ++ sanitize_filename title ++ ".txt"

theorem pyJoin_foldl (sep : String) (l : List String) (init : String) :
    l.foldl (fun acc x => acc ++ sep ++ x) init
      = init ++ strConcat (l.map (fun x => sep ++ x)) := by
  induction l generalizing init with
  | nil => simp [strConcat]
  | cons x l ih =>
    rw [List.foldl_cons, ih, List.map_cons]
    simp [strConcat, String.append_assoc]

theorem pyJoin_cons_of_ne (sep a : String) (l : List String) (h : l ≠ []) :
    pyJoin sep (a :: l) = a ++ sep ++ pyJoin sep l := by
  obtain ⟨b, t, rfl⟩ := List.exists_cons_of_ne_nil h
  show (b :: t).foldl (fun acc x => acc ++ sep ++ x) a = _
  rw [List.foldl_cons, pyJoin_foldl]
  show _ = a ++ sep ++ (t.foldl (fun acc x => acc ++ sep ++ x) b)
  rw [pyJoin_foldl]
  simp [String.append_assoc]

theorem pyJoin_append (sep : String) (L₂ : List String) (hL₂ : L₂ ≠ []) :
    ∀ L₁, pyJoin sep (L₁ ++ L₂)
      = strConcat (L₁.map (fun x => x ++ sep)) ++ pyJoin sep L₂
  | [] => by simp [strConcat]
  | a :: L₁ => by
    have hne : L₁ ++ L₂ ≠ [] := by
      simp only [ne_eq, List.append_eq_nil]
      rintro ⟨-, h⟩
      exact hL₂ h
    rw [List.cons_append, pyJoin_cons_of_ne sep a _ hne, pyJoin_append sep L₂ hL₂ L₁,
      List.map_cons]
    simp [strConcat, String.append_assoc]

/-- C4: for all metadata and segments, the transcript body consists of the
exact bilingual header labels, one line per segment holding the formatted
start timestamp and the segment text in input order, and a trailing
plain-text block equal to all segment texts joined by single spaces,
with all lines joined by newlines. -/
theorem claim4_save_transcript_format (nowStr url platform title language : String)
    (duration : ℤ) (segments : List Segment) :
    save_transcript_content nowStr url platform title duration segments language =
      "Источник: " ++ url ++ "\n" ++
      "Платформа: " ++ platform ++ "\n" ++
      "Название: " ++ title ++ "\n" ++
      "Дата транскрипции: " ++ nowStr ++ "\n" ++
      "Длительность: " ++ format_duration duration ++ "\n" ++
      "Язык: " ++ language ++ "\n" ++
      "\n" ++ sep50 ++ "\n" ++ "\n" ++
      strConcat (segments.map
        (fun seg => format_timestamp seg.start ++ " " ++ seg.text ++ "\n")) ++
      "\n" ++ sep50 ++ "\n" ++
      "ПОЛНЫЙ ТЕКСТ (без таймкодов):" ++ "\n" ++ sep50 ++ "\n" ++ "\n" ++
      pyJoin " " (segments.map Segment.text) := by
  unfold save_transcript_content save_transcript_lines
  rw [pyJoin_append "\n" _ (by simp) _]
  rw [pyJoin_append "\n" _ (by simp) _]
  have hmap : (segments.map (fun seg => format_timestamp seg.start ++ " " ++ seg.text)).map
      (fun x => x ++ "\n")
      = segments.map (fun seg => format_timestamp seg.start ++ " " ++ seg.text ++ "\n") := by
    rw [List.map_map]
    rfl
  rw [hmap]
  simp only [strConcat, pyJoin, List.map_cons, List.map_nil, List.foldl_cons, List.foldl_nil]
  simp only [String.empty_append, String.append_empty, String.append_assoc]

/-- A file name matched by the cleanup glob audio_asterisk of server.py
line 322: any name beginning with audio underscore. -/
def matchesAudioGlob (f : String) : Bool :=
  "audio_".data.isPrefixOf f.data

/-- A file name matched by the artifact search glob of server.py line 290,
audio_asterisk.mp3: the audio underscore prefix and the .mp3 suffix. -/
def matchesAudioMp3Glob (f : String) : Bool :=
  "audio_".data.isPrefixOf f.data && ".mp3".data.isSuffixOf f.data

/-- The artifact search of server.py lines 289 to 292: the first temp file
matching the mp3 glob, in directory iteration order. -/
def find_actual_file (temp : List String) : Option String :=
  (temp.filter matchesAudioMp3Glob).head?

/-- The cleanup loop of server.py lines 320 to 326: every file matching
the audio glob is unlinked, a failed unlink is swallowed and leaves the
file behind. -/
def cleanupTemp (removeOk : String → Bool) (temp : List String) : List String :=
  temp.filter (fun f => !matchesAudioGlob f || !removeOk f)

/-- The value produced by handle_transcribe_url: an error record or the
success record of server.py lines 309 to 318. -/
inductive UrlOutcome where
  | err (msg : String) : UrlOutcome
  | success (platform title duration language : String)
      (segments_count : ℕ) (saved_to transcript : String) : UrlOutcome
deriving DecidableEq

/-- Which pipeline stages a run of the URL flow invoked. -/
structure UrlTrace where
  downloadInvoked : Bool
  transcribeInvoked : Bool
  saveInvoked : Bool

/-- Oracle environment of one URL job: the request arguments, the
configured default language, and the outcomes of the external
collaborators.  temp is the listing of the temp directory as observed by
the glob scans after the download attempt; transcribeResult and saveResult
are Except values whose error constructor models a raised exception;
removeOk tells which unlink calls succeed. -/
structure UrlEnv where
  url : String
  language : Option String
  defaultLanguage : String
  probe : ProbeResult
  downloadOk : Bool
  temp : List String
  transcribeResult : Except String (List Segment)
  saveResult : Except String String
  removeOk : String → Bool

/-- Result of one URL job: the returned value or propagated exception, the
temp directory after cleanup, and the stage trace. -/
structure UrlRun where
  result : Except String UrlOutcome
  temp : List String
  trace : UrlTrace

/-- Replace the unlink oracle of an environment. -/
def UrlEnv.setRemove (env : UrlEnv) (rm : String → Bool) : UrlEnv :=
  ⟨env.url, env.language, env.defaultLanguage, env.probe, env.downloadOk, env.temp,
   env.transcribeResult, env.saveResult, rm⟩

/-- handle_transcribe_url from server.py lines 270 to 326.  Every exit
path of the try block, the download failure return, the missing artifact
return, the empty transcription return, the success return and the two
possible exception propagations, runs the finally cleanup before control
returns. -/
def handle_transcribe_url (env : UrlEnv) : UrlRun :=
  let language := env.language.getD env.defaultLanguage
  let platform := detect_platform env.url
  let info := get_video_info env.probe
  let tempAfter := cleanupTemp env.removeOk env.temp
  if !env.downloadOk then
    ⟨.ok (.err ("Failed to download audio from " ++ env.url ++
        ". Make sure the video is public.")), tempAfter, ⟨true, false, false⟩⟩
  else
    match find_actual_file env.temp with
    | none => ⟨.ok (.err "Audio file not found after download"), tempAfter, ⟨true, false, false⟩⟩
    | some _ =>
      match env.transcribeResult with
      | .error e => ⟨.error e, tempAfter, ⟨true, true, false⟩⟩
      | .ok segments =>
        if segments.isEmpty then
          ⟨.ok (.err "No speech detected in the video"), tempAfter, ⟨true, true, false⟩⟩
        else
          match env.saveResult with
          | .error e => ⟨.error e, tempAfter, ⟨true, true, true⟩⟩
          | .ok filepath =>
            ⟨.ok (.success platform info.title (format_duration info.duration) language
                segments.length filepath (pyJoin " " (segments.map Segment.text))),
              tempAfter, ⟨true, true, true⟩⟩

/-- C1: on every exit path of the URL flow the temp directory is left in
the cleaned state: the cleanup filter has been applied, every remaining
file matching the audio glob is one whose unlink was denied (so if every
unlink succeeds no matching file remains), and the returned result does
not depend on the unlink oracle, so removal failures are swallowed. -/
theorem claim1_cleanup_all_paths (env : UrlEnv) :
    (handle_transcribe_url env).temp = cleanupTemp env.removeOk env.temp
    ∧ ((handle_transcribe_url env).temp.all
        (fun f => !matchesAudioGlob f || !env.removeOk f) = true)
    ∧ (∀ rm, (handle_transcribe_url (env.setRemove rm)).result
        = (handle_transcribe_url env).result) := by
  obtain ⟨url, lang, dflt, probe, dOk, temp, tRes, sRes, rOk⟩ := env
  have htemp : (handle_transcribe_url ⟨url, lang, dflt, probe, dOk, temp, tRes, sRes, rOk⟩).temp
      = cleanupTemp rOk temp := by
    unfold handle_transcribe_url
    cases dOk
    · rfl
    · cases hfa : find_actual_file temp with
      | none => simp [hfa]
      | some f =>
        cases tRes with
        | error e => simp [hfa]
        | ok segments =>
          cases hseg : segments.isEmpty
          · cases sRes with
            | error e => simp [hfa, hseg]
            | ok fp => simp [hfa, hseg]
          · simp [hfa, hseg]
  refine ⟨htemp, ?_, ?_⟩
  · rw [htemp]
    rw [List.all_eq_true]
    intro f hf
    exact @List.of_mem_filter String (fun f => !matchesAudioGlob f || !rOk f) f temp hf
  · intro rm
    unfold handle_transcribe_url UrlEnv.setRemove
    cases dOk
    · rfl
    · cases hfa : find_actual_file temp with
      | none => simp [hfa]
      | some f =>
        cases tRes with
        | error e => simp [hfa]
        | ok segments =>
          cases hseg : segments.isEmpty
          · cases sRes with
            | error e => simp [hfa, hseg]
            | ok fp => simp [hfa, hseg]
          · simp [hfa, hseg]

/-- C2: when audio acquisition fails the URL flow returns exactly the
download error with the URL in the message, and neither the transcription
stage nor the persistence stage is invoked. -/
theorem claim2_download_failure (env : UrlEnv) (h : env.downloadOk = false) :
    (handle_transcribe_url env).result
      = .ok (.err ("Failed to download audio from " ++ env.url ++
          ". Make sure the video is public."))
    ∧ (handle_transcribe_url env).trace.transcribeInvoked = false
    ∧ (handle_transcribe_url env).trace.saveInvoked = false := by
  unfold handle_transcribe_url
  rw [h]
  exact ⟨rfl, rfl, rfl⟩

/-- Concrete URL job whose download fails. -/
def envDownloadFail : UrlEnv :=
  ⟨"https://youtu.be/abc", none, "ru", .exn, false, ["audio_1.mp3"],
   .ok [], .ok "path", fun _ => true⟩

/-- Witness for C2 at a concrete environment. -/
theorem claim2_witness :
    (handle_transcribe_url envDownloadFail).result
      = .ok (.err "Failed to download audio from https://youtu.be/abc. Make sure the video is public.")
    ∧ (handle_transcribe_url envDownloadFail).trace.transcribeInvoked = false
    ∧ (handle_transcribe_url envDownloadFail).trace.saveInvoked = false := by
  have h := claim2_download_failure envDownloadFail rfl
  exact ⟨by rw [h.1]; rfl, h.2.1, h.2.2⟩

/-- Concrete URL job where the downloader produced an artifact whose
extension is not mp3. -/
def envArtifactMissing : UrlEnv :=
  ⟨"https://youtu.be/abc", none, "ru", .exn, true, ["audio_20240101_120000.m4a"],
   .ok [⟨0, 1, "hi"⟩], .ok "path", fun _ => true⟩

/-- C3 counterexample: the download succeeded and the temp directory holds
a file matching the job naming prefix whose extension the downloader
altered away from mp3, yet the flow returns the artifact missing error:
the scan does not tolerate arbitrary extension changes, because its glob
requires the .mp3 suffix. -/
theorem claim3_counterexample :
    (handle_transcribe_url envArtifactMissing).result
      = .ok (.err "Audio file not found after download")
    ∧ matchesAudioGlob "audio_20240101_120000.m4a" = true
    ∧ envArtifactMissing.downloadOk = true := by
  exact ⟨rfl, by decide, rfl⟩

/-- C3 as amended: after a successful download the artifact is located by
scanning the temp directory for names with the audio underscore prefix and
the .mp3 suffix; exactly when no file matches that pattern the flow
returns the artifact missing error without transcribing or persisting. -/
theorem claim3_amended (env : UrlEnv) (h : env.downloadOk = true) :
    ((env.temp.all (fun f => !matchesAudioMp3Glob f) = true) →
      (handle_transcribe_url env).result = .ok (.err "Audio file not found after download")
      ∧ (handle_transcribe_url env).trace.transcribeInvoked = false
      ∧ (handle_transcribe_url env).trace.saveInvoked = false)
    ∧ ((env.temp.any matchesAudioMp3Glob = true) →
      (handle_transcribe_url env).result ≠ .ok (.err "Audio file not found after download")) := by
  constructor
  · intro hall
    have hnil : env.temp.filter matchesAudioMp3Glob = [] := by
      rw [List.filter_eq_nil_iff]
      intro a ha
      have := (List.all_eq_true.mp hall) a ha
      simpa using this
    have hfind : find_actual_file env.temp = none := by
      unfold find_actual_file
      rw [hnil]
      rfl
    unfold handle_transcribe_url
    rw [h, hfind]
    exact ⟨rfl, rfl, rfl⟩
  · intro hany
    have hne : env.temp.filter matchesAudioMp3Glob ≠ [] := by
      rw [ne_eq, List.filter_eq_nil_iff]
      intro hnone
      obtain ⟨a, ha, hpa⟩ := List.any_eq_true.mp hany
      exact hnone a ha hpa
    obtain ⟨f, t, hft⟩ := List.exists_cons_of_ne_nil hne
    have hfind : find_actual_file env.temp = some f := by
      unfold find_actual_file
      rw [hft]
      rfl
    unfold handle_transcribe_url
    rw [h, hfind]
    cases env.transcribeResult with
    | error e => simp
    | ok segments =>
      cases hseg : segments.isEmpty
      · cases env.saveResult with
        | error e => simp [hseg]
        | ok fp => simp [hseg]
      · simp [hseg]

/-- Witness for the amended C3 at a concrete environment. -/
theorem claim3_witness :
    (handle_transcribe_url envArtifactMissing).result
      = .ok (.err "Audio file not found after download")
    ∧ (handle_transcribe_url envArtifactMissing).trace.transcribeInvoked = false
    ∧ (handle_transcribe_url envArtifactMissing).trace.saveInvoked = false :=
  (claim3_amended envArtifactMissing rfl).1 (by decide)

/-- C5: the metadata probe returns the all-default record on a raised
exception, on any non-zero exit code and on malformed JSON output, and
the URL flow always reaches the acquisition stage, whatever the probe
outcome was. -/
theorem claim5_probe_absorbs_failure :
    (get_video_info .exn = ⟨"Unknown", 0, "Unknown"⟩)
    ∧ (∀ (rc : ℤ) (parsed : Option VideoJson), rc ≠ 0 →
        get_video_info (.run rc parsed) = ⟨"Unknown", 0, "Unknown"⟩)
    ∧ (∀ (rc : ℤ), get_video_info (.run rc none) = ⟨"Unknown", 0, "Unknown"⟩)
    ∧ (∀ env : UrlEnv, (handle_transcribe_url env).trace.downloadInvoked = true) := by
  refine ⟨rfl, ?_, ?_, ?_⟩
  · intro rc parsed h
    simp [get_video_info, h]
  · intro rc
    by_cases h : rc = 0 <;> simp [get_video_info, h]
  · intro env
    obtain ⟨url, lang, dflt, probe, dOk, temp, tRes, sRes, rOk⟩ := env
    unfold handle_transcribe_url
    cases dOk
    · rfl
    · cases hfa : find_actual_file temp with
      | none => simp [hfa]
      | some f =>
        cases tRes with
        | error e => simp [hfa]
        | ok segments =>
          cases hseg : segments.isEmpty
          · cases sRes with
            | error e => simp [hfa, hseg]
            | ok fp => simp [hfa, hseg]
          · simp [hfa, hseg]

/-- Witness for C5: a failing probe run with well-formed JSON still yields
the default record because of its non-zero exit code. -/
theorem claim5_witness :
    get_video_info (.run 1 (some ⟨some "T", some 5, some "U"⟩)) = ⟨"Unknown", 0, "Unknown"⟩ :=
  claim5_probe_absorbs_failure.2.1 1 (some ⟨some "T", some 5, some "U"⟩) (by decide)

/-- The value produced by handle_transcribe_file: an error record or the
success record of server.py lines 359 to 367. -/
inductive FileOutcome where
  | err (msg : String) : FileOutcome
  | success (file duration language : String)
      (segments_count : ℕ) (saved_to transcript : String) : FileOutcome
deriving DecidableEq

/-- Which stages a run of the file flow invoked. -/
structure FileTrace where
  transcribeInvoked : Bool
  saveInvoked : Bool

/-- Oracle environment of one local-file job: the request arguments, the
configured default language, the home-expanded path and whether it exists,
and the outcomes of transcription and persistence. -/
structure FileEnv where
  file_path : String
  language : Option String
  defaultLanguage : String
  expandedPath : String
  pathExists : Bool
  transcribeResult : Except String (List Segment)
  saveResult : Except String String

/-- Result of one local-file job. -/
structure FileRun where
  result : Except String FileOutcome
  trace : FileTrace

/-- handle_transcribe_file from server.py lines 329 to 367. -/
def handle_transcribe_file (env : FileEnv) : FileRun :=
  let language := env.language.getD env.defaultLanguage
  if !env.pathExists then
    ⟨.ok (.err ("File not found: " ++ env.file_path)), ⟨false, false⟩⟩
  else
    match env.transcribeResult with
    | .error e => ⟨.error e, ⟨true, false⟩⟩
    | .ok segments =>
      if segments.isEmpty then
        ⟨.ok (.err "No speech detected in the file"), ⟨true, false⟩⟩
      else
        let duration : ℤ := segments.getLast?.elim 0 (fun s => pyInt s.stop)
        match env.saveResult with
        | .error e => ⟨.error e, ⟨true, true⟩⟩
        | .ok filepath =>
          ⟨.ok (.success env.expandedPath (format_duration duration) language
              segments.length filepath (pyJoin " " (segments.map Segment.text))),
            ⟨true, true⟩⟩

/-- C7: when the home-expanded path does not exist the file flow returns
exactly the file not found error carrying the requested path, without
invoking transcription and without persisting anything. -/
theorem claim7_file_not_found (env : FileEnv) (h : env.pathExists = false) :
    (handle_transcribe_file env).result = .ok (.err ("File not found: " ++ env.file_path))
    ∧ (handle_transcribe_file env).trace.transcribeInvoked = false
    ∧ (handle_transcribe_file env).trace.saveInvoked = false := by
  unfold handle_transcribe_file
  rw [h]
  exact ⟨rfl, rfl, rfl⟩

/-- Concrete file job whose path does not exist. -/
def envFileMissing : FileEnv :=
  ⟨"~/clips/x.mp4", none, "ru", "/home/u/clips/x.mp4", false, .ok [], .ok "p"⟩

/-- Witness for C7 at a concrete environment. -/
theorem claim7_witness :
    (handle_transcribe_file envFileMissing).result
      = .ok (.err "File not found: ~/clips/x.mp4")
    ∧ (handle_transcribe_file envFileMissing).trace.transcribeInvoked = false
    ∧ (handle_transcribe_file envFileMissing).trace.saveInvoked = false := by
  have h := claim7_file_not_found envFileMissing rfl
  exact ⟨by rw [h.1]; rfl, h.2.1, h.2.2⟩

/-- One persisted transcript file as seen on disk: its name, its size in
bytes and its formatted modification time. -/
structure StoredFile where
  name : String
  size : ℕ
  mtimeStr : String

/-- One entry of the handle_list_transcripts response. -/
structure TranscriptEntry where
  filename : String
  path : String
  size_kb : ℚ
  modified : String
deriving DecidableEq

/-- The response record of handle_list_transcripts. -/
structure ListRun where
  transcripts_dir : String
  count : ℕ
  files : List TranscriptEntry

/-- Python round to one decimal place with round-half-to-even, applied to
the exactly representable quotient size divided by 1024. -/
def pyRound1 (q : ℚ) : ℚ :=
  let t : ℚ := 10 * q
  let fl : ℤ := ratFloor t
  let frac : ℚ := t - (fl : ℚ)
  let r : ℤ :=
    if frac < 1/2 then fl
    else if (1 : ℚ)/2 < frac then fl + 1
    else if fl % 2 = 0 then fl else fl + 1
  (r : ℚ) / 10

/-- Python sorted with reverse true over the directory listing: descending
by file name. -/
def sortByNameDesc (files : List StoredFile) : List StoredFile :=
  files.mergeSort (fun a b => decide (b.name ≤ a.name))

/-- The Python slice l up to n: for a non-negative bound a prefix of that
many elements, for a negative bound the length of the list plus the bound,
clamped at zero. -/
def pySlice {α : Type} (l : List α) (n : ℤ) : List α :=
  if 0 ≤ n then l.take n.toNat else l.take ((l.length : ℤ) + n).toNat

/-- handle_list_transcripts from server.py lines 370 to 387. -/
def handle_list_transcripts (dir : String) (store : List StoredFile) (limit : ℤ) : ListRun :=
  let files := pySlice (sortByNameDesc store) limit
  let transcripts := files.map (fun f =>
    TranscriptEntry.mk f.name (dir ++ "/" ++ f.name) (pyRound1 ((f.size : ℚ) / 1024)) f.mtimeStr)
  ⟨dir, transcripts.length, transcripts⟩

theorem sortByNameDesc_pairwise (store : List StoredFile) :
    (sortByNameDesc store).Pairwise (fun a b => b.name ≤ a.name) := by
  have h := List.sorted_mergeSort
    (fun (a b c : StoredFile) (h₁ : decide (b.name ≤ a.name) = true)
        (h₂ : decide (c.name ≤ b.name) = true) => by
      simp only [decide_eq_true_eq] at h₁ h₂ ⊢
      exact le_trans h₂ h₁)
    (fun (a b : StoredFile) => by
      rcases le_total b.name a.name with hc | hc
      · simp [hc]
      · simp [hc])
    store
  exact h.imp (fun hab => of_decide_eq_true hab)

theorem sortByNameDesc_perm (store : List StoredFile) :
    (sortByNameDesc store).Perm store :=
  List.mergeSort_perm store _

/-- C9: for a non-negative limit, list_transcripts returns exactly the
first min(limit, n) entries of the reverse lexicographic order of the
stored file names (the returned name sequence equals that prefix, and
every stored name left out is bounded by every returned name), in
descending order, each entry carrying the name, the path inside the
transcripts directory, the rounded kilobyte size and the modification
time of the corresponding stored file, and the count field equals the
number of returned entries. -/
theorem claim9_list_transcripts (dir : String) (store : List StoredFile) (limit : ℤ)
    (h : 0 ≤ limit) :
    (handle_list_transcripts dir store limit).files.map TranscriptEntry.filename
      = ((sortByNameDesc store).map StoredFile.name).take limit.toNat
    ∧ (handle_list_transcripts dir store limit).files.length = min limit.toNat store.length
    ∧ ((handle_list_transcripts dir store limit).files.map
        TranscriptEntry.filename).Pairwise (fun a b => b ≤ a)
    ∧ (∀ a ∈ (handle_list_transcripts dir store limit).files.map TranscriptEntry.filename,
        ∀ b ∈ ((sortByNameDesc store).map StoredFile.name).drop limit.toNat, b ≤ a)
    ∧ (∀ e ∈ (handle_list_transcripts dir store limit).files, ∃ f ∈ store,
        e.filename = f.name ∧ e.path = dir ++ "/" ++ f.name
        ∧ e.size_kb = pyRound1 ((f.size : ℚ) / 1024) ∧ e.modified = f.mtimeStr)
    ∧ (handle_list_transcripts dir store limit).count
        = (handle_list_transcripts dir store limit).files.length := by
  have hslice : pySlice (sortByNameDesc store) limit
      = (sortByNameDesc store).take limit.toNat := by
    unfold pySlice
    rw [if_pos h]
  have hfiles : (handle_list_transcripts dir store limit).files
      = ((sortByNameDesc store).take limit.toNat).map (fun f =>
          TranscriptEntry.mk f.name (dir ++ "/" ++ f.name)
            (pyRound1 ((f.size : ℚ) / 1024)) f.mtimeStr) := by
    show (pySlice (sortByNameDesc store) limit).map _ = _
    rw [hslice]
  have hA : (handle_list_transcripts dir store limit).files.map TranscriptEntry.filename
      = ((sortByNameDesc store).map StoredFile.name).take limit.toNat := by
    rw [hfiles, List.map_map, ← List.map_take]
    rfl
  have hpairfull : (((sortByNameDesc store).map StoredFile.name).take limit.toNat
      ++ ((sortByNameDesc store).map StoredFile.name).drop limit.toNat).Pairwise
      (fun a b => b ≤ a) := by
    rw [List.take_append_drop, List.pairwise_map]
    exact (sortByNameDesc_pairwise store).imp (fun hab => hab)
  refine ⟨hA, ?_, ?_, ?_, ?_, rfl⟩
  · rw [hfiles, List.length_map, List.length_take, (sortByNameDesc_perm store).length_eq]
  · rw [hA]
    exact (List.pairwise_append.mp hpairfull).1
  · rw [hA]
    exact (List.pairwise_append.mp hpairfull).2.2
  · intro e he
    rw [hfiles] at he
    obtain ⟨f, hf, rfl⟩ := List.mem_map.mp he
    have hf' : f ∈ sortByNameDesc store := List.mem_of_mem_take hf
    exact ⟨f, (sortByNameDesc_perm store).mem_iff.mp hf', rfl, rfl, rfl, rfl⟩

/-- Concrete store of five transcript files. -/
def storeFive : List StoredFile :=
  [⟨"2024-01-01_a.txt", 1024, "m1"⟩, ⟨"2024-01-02_b.txt", 2048, "m2"⟩,
   ⟨"2024-01-03_c.txt", 512, "m3"⟩, ⟨"2024-01-04_d.txt", 100, "m4"⟩,
   ⟨"2024-01-05_e.txt", 3072, "m5"⟩]

theorem sortByNameDesc_storeFive_names :
    (sortByNameDesc storeFive).map StoredFile.name
      = ["2024-01-05_e.txt", "2024-01-04_d.txt", "2024-01-03_c.txt",
         "2024-01-02_b.txt", "2024-01-01_a.txt"] := by
  haveI : IsAntisymm String (fun a b => b ≤ a) := ⟨fun a b h1 h2 => le_antisymm h2 h1⟩
  have hperm : ((sortByNameDesc storeFive).map StoredFile.name).Perm
      ["2024-01-05_e.txt", "2024-01-04_d.txt", "2024-01-03_c.txt",
       "2024-01-02_b.txt", "2024-01-01_a.txt"] := by
    have h1 : ((sortByNameDesc storeFive).map StoredFile.name).Perm
        (storeFive.map StoredFile.name) :=
      (sortByNameDesc_perm storeFive).map _
    refine h1.trans ?_
    rw [show ["2024-01-05_e.txt", "2024-01-04_d.txt", "2024-01-03_c.txt",
        "2024-01-02_b.txt", "2024-01-01_a.txt"]
      = (storeFive.map StoredFile.name).reverse from rfl]
    exact (List.reverse_perm _).symm
  have hs1 : List.Sorted (fun a b : String => b ≤ a)
      ((sortByNameDesc storeFive).map StoredFile.name) :=
    List.pairwise_map.mpr (sortByNameDesc_pairwise storeFive)
  have hde : ("2024-01-04_d.txt" : String) < "2024-01-05_e.txt" :=
    String.lt_iff_toList_lt.mpr (by decide)
  have hcd : ("2024-01-03_c.txt" : String) < "2024-01-04_d.txt" :=
    String.lt_iff_toList_lt.mpr (by decide)
  have hbc : ("2024-01-02_b.txt" : String) < "2024-01-03_c.txt" :=
    String.lt_iff_toList_lt.mpr (by decide)
  have hab : ("2024-01-01_a.txt" : String) < "2024-01-02_b.txt" :=
    String.lt_iff_toList_lt.mpr (by decide)
  haveI : IsTrans String (fun a b => b ≤ a) := ⟨fun a b c h1 h2 => le_trans h2 h1⟩
  have hchain : List.Chain' (fun a b : String => b ≤ a)
      ["2024-01-05_e.txt", "2024-01-04_d.txt", "2024-01-03_c.txt",
       "2024-01-02_b.txt", "2024-01-01_a.txt"] := by
    simp only [List.chain'_cons, List.chain'_singleton, and_true]
    exact ⟨le_of_lt hde, le_of_lt hcd, le_of_lt hbc, le_of_lt hab⟩
  have hs2 : List.Sorted (fun a b : String => b ≤ a)
      ["2024-01-05_e.txt", "2024-01-04_d.txt", "2024-01-03_c.txt",
       "2024-01-02_b.txt", "2024-01-01_a.txt"] := List.chain'_iff_pairwise.mp hchain
  exact List.eq_of_perm_of_sorted hperm hs1 hs2

/-- Witness for C9: limit two over the concrete store of five files
returns exactly the two reverse-lexicographically first names, in order,
with a matching count. -/
theorem claim9_witness :
    (handle_list_transcripts "/t" storeFive 2).files.map TranscriptEntry.filename
      = ["2024-01-05_e.txt", "2024-01-04_d.txt"]
    ∧ (handle_list_transcripts "/t" storeFive 2).count = 2 := by
  have h := claim9_list_transcripts "/t" storeFive 2 (by decide)
  constructor
  · rw [h.1, sortByNameDesc_storeFive_names]
    rfl
  · rw [h.2.2.2.2.2, h.2.1]
    decide

/-- C10: for a negative limit the handler still succeeds: by the Python
slice semantics it returns the descending-sorted names truncated by the
absolute value of the limit, which drops exactly the lexicographically
smallest stored names (every dropped name is bounded by every returned
name), and the count field equals the number of returned entries. -/
theorem claim10_negative_limit (dir : String) (store : List StoredFile) (limit : ℤ)
    (h : limit < 0) :
    (handle_list_transcripts dir store limit).files.map TranscriptEntry.filename
      = ((sortByNameDesc store).map StoredFile.name).take ((store.length : ℤ) + limit).toNat
    ∧ (((sortByNameDesc store).map StoredFile.name).drop
        ((store.length : ℤ) + limit).toNat).length = min (-limit).toNat store.length
    ∧ (∀ a ∈ ((sortByNameDesc store).map StoredFile.name).take ((store.length : ℤ) + limit).toNat,
        ∀ b ∈ ((sortByNameDesc store).map StoredFile.name).drop ((store.length : ℤ) + limit).toNat,
        b ≤ a)
    ∧ (handle_list_transcripts dir store limit).count
        = (handle_list_transcripts dir store limit).files.length := by
  have hlen : (sortByNameDesc store).length = store.length := (sortByNameDesc_perm store).length_eq
  have hslice : pySlice (sortByNameDesc store) limit
      = (sortByNameDesc store).take ((store.length : ℤ) + limit).toNat := by
    unfold pySlice
    rw [if_neg (by omega), hlen]
  refine ⟨?_, ?_, ?_, ?_⟩
  · show ((pySlice (sortByNameDesc store) limit).map _).map _ = _
    rw [hslice, List.map_map, ← List.map_take]
    rfl
  · rw [List.length_drop, List.length_map, hlen]
    omega
  · have hpair : (((sortByNameDesc store).map StoredFile.name).take
          ((store.length : ℤ) + limit).toNat
        ++ ((sortByNameDesc store).map StoredFile.name).drop
          ((store.length : ℤ) + limit).toNat).Pairwise (fun a b => b ≤ a) := by
      rw [List.take_append_drop]
      rw [List.pairwise_map]
      exact (sortByNameDesc_pairwise store).imp (fun hab => hab)
    exact (List.pairwise_append.mp hpair).2.2
  · rfl

/-- Witness for C10 at a concrete store and the limit minus two. -/
theorem claim10_witness :
    (handle_list_transcripts "/t" storeFive (-2)).files.map TranscriptEntry.filename
      = ((sortByNameDesc storeFive).map StoredFile.name).take ((storeFive.length : ℤ) + (-2)).toNat
    ∧ (handle_list_transcripts "/t" storeFive (-2)).count
        = (handle_list_transcripts "/t" storeFive (-2)).files.length :=
  ⟨(claim10_negative_limit "/t" storeFive (-2) (by decide)).1,
   (claim10_negative_limit "/t" storeFive (-2) (by decide)).2.2.2⟩

/-- Lowercase hexadecimal digit. -/
def hexDigit (n : ℕ) : Char :=
  if n < 10 then Char.ofNat (48 + n) else Char.ofNat (87 + n)

/-- Four lowercase hexadecimal digits, as in the Python json unicode
escape. -/
def hex4 (n : ℕ) : String :=
  String.mk [hexDigit (n / 4096 % 16), hexDigit (n / 256 % 16),
    hexDigit (n / 16 % 16), hexDigit (n % 16)]

/-- The Python json backslash-u escape of a code point, using a surrogate
pair above the basic plane. -/
def uEscape (n : ℕ) : String :=
  if n < 0x10000 then "\\u" ++ hex4 n
  else
    "\\u" ++ hex4 (0xd800 + (n - 0x10000) / 0x400) ++
    "\\u" ++ hex4 (0xdc00 + (n - 0x10000) % 0x400)

/-- Escaping of one character by the Python json encoder: quote, backslash
and control characters are always escaped; with ensure_ascii every
character outside the printable ASCII range is escaped as well, otherwise
it is kept literally. -/
def py_escape_char (ea : Bool) (c : Char) : String :=
  if c = '\"' then "\\\""
  else if c = '\\' then "\\\\"
  else if c = '\n' then "\\n"
  else if c = '\t' then "\\t"
  else if c = '\r' then "\\r"
  else if c.toNat = 8 then "\\b"
  else if c.toNat = 12 then "\\f"
  else if c.toNat < 0x20 then "\\u" ++ hex4 c.toNat
  else if ea ∧ 0x7f ≤ c.toNat then uEscape c.toNat
  else String.singleton c

/-- Escaping of a character list by the Python json encoder. -/
def py_escape_list (ea : Bool) : List Char → String
  | [] => ""
  | c :: cs => py_escape_char ea c ++ py_escape_list ea cs

/-- Escaping of a string value by the Python json encoder. -/
def py_escape_string (ea : Bool) (s : String) : String :=
  py_escape_list ea s.data

/-- The JSON values serialized by the dispatch layer. -/
inductive Json where
  | str (s : String) : Json
  | int (n : ℤ) : Json
  | bool (b : Bool) : Json
  | arr (elems : List Json) : Json
  | obj (fields : List (String × Json)) : Json

/-- Indentation of the given width. -/
def spaces (n : ℕ) : String :=
  String.mk (List.replicate n ' ')

mutual

/-- Python json.dumps with indent two at a given indentation level. -/
def dumpJson (ea : Bool) (lvl : ℕ) : Json → String
  | .str s => "\"" ++ py_escape_string ea s ++ "\""
  | .int n => toString n
  | .bool b => if b then "true" else "false"
  | .arr [] => "[]"
  | .arr (e :: es) =>
    "[\n" ++ spaces (lvl + 2) ++ dumpJson ea (lvl + 2) e ++ dumpItems ea (lvl + 2) es
      ++ "\n" ++ spaces lvl ++ "]"
  | .obj [] => "\x7b\x7d"
  | .obj (f :: fs) =>
    "\x7b\n" ++ spaces (lvl + 2) ++ dumpField ea (lvl + 2) f ++ dumpFields ea (lvl + 2) fs
      ++ "\n" ++ spaces lvl ++ "\x7d"

/-- One key-value pair of an object. -/
def dumpField (ea : Bool) (lvl : ℕ) : String × Json → String
  | (k, v) => "\"" ++ py_escape_string ea k ++ "\": " ++ dumpJson ea lvl v

/-- The remaining array items, each preceded by the separator. -/
def dumpItems (ea : Bool) (lvl : ℕ) : List Json → String
  | [] => ""
  | e :: es => ",\n" ++ spaces lvl ++ dumpJson ea lvl e ++ dumpItems ea lvl es

/-- The remaining object fields, each preceded by the separator. -/
def dumpFields (ea : Bool) (lvl : ℕ) : List (String × Json) → String
  | [] => ""
  | f :: fs => ",\n" ++ spaces lvl ++ dumpField ea lvl f ++ dumpFields ea lvl fs

end

/-- Python json.dumps with indent two, from the top level. -/
def py_json_dumps (ea : Bool) (j : Json) : String :=
  dumpJson ea 0 j

/-- The three registered tool names of the dispatch chain. -/
def knownToolName (name : String) : Bool :=
  name == "transcribe_url" || name == "transcribe_file" || name == "list_transcripts"

/-- handle_tool_call from server.py lines 390 to 413.  The outcome oracle
is the awaited result of the selected handler: ok carries its returned
record, error carries the message of an exception escaping the try block.
The normal return serializes with ensure_ascii disabled; the except branch
serializes the error record with the json.dumps default, which escapes
every non-ASCII character. -/
def handle_tool_call (name : String) (outcome : Except String Json) : String :=
  match outcome with
  | .error e => py_json_dumps true (Json.obj [("error", Json.str e)])
  | .ok r =>
    if knownToolName name then py_json_dumps false r
    else py_json_dumps false (Json.obj [("error", Json.str ("Unknown tool: " ++ name))])

/-- Being an ASCII character. -/
def asciiPred (c : Char) : Bool :=
  decide (c.toNat < 128)

/-- A character that the json string encoder copies through unchanged when
ensure_ascii is disabled: printable, not the quote, not the backslash. -/
def jsonPlainChar (c : Char) : Bool :=
  decide (0x20 ≤ c.toNat) && !(c == '\"') && !(c == '\\')

theorem hexDigit_ascii (n : ℕ) (h : n < 16) : (hexDigit n).toNat < 128 := by
  interval_cases n <;> decide

theorem hex4_ascii (n : ℕ) : (hex4 n).data.all asciiPred = true := by
  have h1 := hexDigit_ascii (n / 4096 % 16) (Nat.mod_lt _ (by norm_num))
  have h2 := hexDigit_ascii (n / 256 % 16) (Nat.mod_lt _ (by norm_num))
  have h3 := hexDigit_ascii (n / 16 % 16) (Nat.mod_lt _ (by norm_num))
  have h4 := hexDigit_ascii (n % 16) (Nat.mod_lt _ (by norm_num))
  show ([hexDigit (n / 4096 % 16), hexDigit (n / 256 % 16),
    hexDigit (n / 16 % 16), hexDigit (n % 16)].all asciiPred) = true
  simp only [List.all_cons, List.all_nil, Bool.and_eq_true, asciiPred, decide_eq_true_eq]
  exact ⟨h1, h2, h3, h4, trivial⟩

theorem uEscape_ascii (n : ℕ) : (uEscape n).data.all asciiPred = true := by
  unfold uEscape
  split_ifs with h
  · rw [String.data_append, List.all_append, hex4_ascii]
    decide
  · rw [String.data_append, List.all_append, hex4_ascii]
    rw [String.data_append, List.all_append]
    rw [String.data_append, List.all_append, hex4_ascii]
    decide

theorem py_escape_char_true_ascii (c : Char) :
    (py_escape_char true c).data.all asciiPred = true := by
  unfold py_escape_char
  split_ifs with g1 g2 g3 g4 g5 g6 g7 g8 g9
  · decide
  · decide
  · decide
  · decide
  · decide
  · decide
  · decide
  · rw [String.data_append, List.all_append, hex4_ascii]
    decide
  · exact uEscape_ascii c.toNat
  · have hlt : c.toNat < 0x7f := by
      rcases Nat.lt_or_ge c.toNat 0x7f with hc | hc
      · exact hc
      · exact absurd ⟨rfl, hc⟩ g9
    show ([c].all asciiPred) = true
    simp only [List.all_cons, List.all_nil, Bool.and_true, asciiPred, decide_eq_true_eq]
    omega

theorem py_escape_list_true_ascii (l : List Char) :
    (py_escape_list true l).data.all asciiPred = true := by
  induction l with
  | nil => decide
  | cons c cs ih =>
    show ((py_escape_char true c ++ py_escape_list true cs)).data.all asciiPred = true
    rw [String.data_append, List.all_append, py_escape_char_true_ascii c, ih]
    rfl

theorem py_escape_string_true_ascii (s : String) :
    (py_escape_string true s).data.all asciiPred = true :=
  py_escape_list_true_ascii s.data

theorem py_escape_char_false_plain (c : Char) (h : jsonPlainChar c = true) :
    py_escape_char false c = String.singleton c := by
  unfold jsonPlainChar at h
  simp only [Bool.and_eq_true, decide_eq_true_eq, Bool.not_eq_true', beq_eq_false_iff_ne,
    ne_eq] at h
  obtain ⟨⟨h1, h2⟩, h3⟩ := h
  unfold py_escape_char
  split_ifs with g1 g2 g3 g4 g5 g6 g7
  · rw [g1] at h1
    exact absurd h1 (by decide)
  · rw [g2] at h1
    exact absurd h1 (by decide)
  · rw [g3] at h1
    exact absurd h1 (by decide)
  · omega
  · omega
  · omega
  · exact absurd g7.1 (by decide)
  · rfl

theorem py_escape_list_false_plain (l : List Char) (h : l.all jsonPlainChar = true) :
    py_escape_list false l = String.mk l := by
  induction l with
  | nil => rfl
  | cons c cs ih =>
    rw [List.all_cons, Bool.and_eq_true] at h
    show py_escape_char false c ++ py_escape_list false cs = String.mk (c :: cs)
    rw [py_escape_char_false_plain c h.1, ih h.2]
    apply String.ext
    simp [String.data_append, String.singleton]

theorem py_escape_string_false_plain (s : String) (h : s.data.all jsonPlainChar = true) :
    py_escape_string false s = s := by
  unfold py_escape_string
  rw [py_escape_list_false_plain _ h]

theorem dumps_single_field (ea : Bool) (k v : String) :
    py_json_dumps ea (Json.obj [(k, Json.str v)])
      = "\x7b\n  \"" ++ py_escape_string ea k ++ "\": \"" ++ py_escape_string ea v ++ "\"\n\x7d" := by
  simp only [py_json_dumps, dumpJson, dumpField, dumpFields]
  apply String.ext
  simp only [String.data_append]
  rw [show (spaces (0 + 2)).data = [' ', ' '] from rfl]
  rw [show (spaces 0).data = [] from rfl]
  simp [List.append_assoc]

/-- C6 counterexample: a handler exception whose message is the Russian
word for error is serialized on the catch path with every character
escaped as a backslash-u sequence; the literal Cyrillic characters do not
appear in the output, refuting literal preservation on that path. -/
theorem claim6_counterexample :
    handle_tool_call "transcribe_url" (.error "Ошибка")
      = "\x7b\n  \"error\": \"\\u041e\\u0448\\u0438\\u0431\\u043a\\u0430\"\n\x7d"
    ∧ (handle_tool_call "transcribe_url" (.error "Ошибка")).data.contains 'О' = false :=
  ⟨rfl, by decide⟩

/-- C6 as amended: on the normal result path the dispatch layer serializes
pretty-printed with non-ASCII preserved literally, but on the path where a
handler raises, the catch-branch serialization uses the json.dumps default
and its output is pure ASCII, so non-ASCII characters of the exception
message are escaped rather than preserved. -/
theorem claim6_amended (name : String) :
    (∀ e : String, (handle_tool_call name (.error e)).data.all asciiPred = true)
    ∧ (∀ s : String, s.data.all jsonPlainChar = true → knownToolName name = true →
        handle_tool_call name (.ok (Json.obj [("transcript", Json.str s)]))
          = "\x7b\n  \"transcript\": \"" ++ s ++ "\"\n\x7d") := by
  constructor
  · intro e
    show (py_json_dumps true (Json.obj [("error", Json.str e)])).data.all asciiPred = true
    rw [dumps_single_field]
    simp only [String.data_append, List.all_append, Bool.and_eq_true]
    refine ⟨⟨⟨⟨by decide, by decide⟩, by decide⟩, py_escape_string_true_ascii e⟩, by decide⟩
  · intro s hs hknown
    have key : handle_tool_call name (.ok (Json.obj [("transcript", Json.str s)]))
        = py_json_dumps false (Json.obj [("transcript", Json.str s)]) := by
      simp only [handle_tool_call]
      rw [if_pos hknown]
    rw [key, dumps_single_field, py_escape_string_false_plain s hs]
    rw [show py_escape_string false "transcript" = "transcript" from rfl]
    rw [show ("\x7b\n  \"" ++ "transcript" ++ "\": \"" : String) = "\x7b\n  \"transcript\": \""
      from by decide]

/-- Witness for the amended C6: a known tool with a Cyrillic transcript
value keeps the Cyrillic text verbatim in the serialized response. -/
theorem claim6_witness :
    handle_tool_call "transcribe_url" (.ok (Json.obj [("transcript", Json.str "Привет")]))
      = "\x7b\n  \"transcript\": \"Привет\"\n\x7d" :=
  (claim6_amended "transcribe_url").2 "Привет" (by decide) rfl

end Server
